import Mathlib

/-
Verification of the function-boundary detection, signature extraction and
comment formatting logic of `src/extension.ts` (an editor plugin that inserts
generated XML documentation comments above a function).

Modelling conventions:
  * JS strings are modelled as `List Char`; a document is a `List (List Char)`
    of its lines (the host editor's `lineAt` / `lineCount` view).
  * The five regular expressions of the source are embedded as terms of a
    small regex AST `RE` together with a backtracking matcher `mtch` that
    mirrors JS regex semantics for the constructs those patterns use:
    leftmost match, left-preferring alternation, greedy quantifiers
    (all quantified subterms in the source patterns are character classes),
    and numbered capture groups.
  * `document.lineAt(i)` can throw on an out-of-range index, so the Locator
    is modelled in `Except Unit`, with `Except.error ()` standing for a thrown
    exception and `Except.ok none` for the `null` result.
-/

set_option maxHeartbeats 8000000
set_option maxRecDepth 8000

namespace XmlDocGen

/-- JS `\w` character class: `[A-Za-z0-9_]`. -/
def isWordChar (c : Char) : Bool :=
  (('a' ≤ c) && (c ≤ 'z')) || (('A' ≤ c) && (c ≤ 'Z')) ||
  (('0' ≤ c) && (c ≤ '9')) || (c == '_')

/-- JS `\s` character class (ECMA-262 WhiteSpace and LineTerminator). -/
def isSpaceJS (c : Char) : Bool :=
  (c == ' ') || (c == '\t') || (c == '\n') || (c == '\r') ||
  (c == '\x0b') || (c == '\x0c') || (c == '\u00A0') || (c == '\uFEFF') ||
  (c == '\u1680') || (('\u2000' ≤ c) && (c ≤ '\u200A')) ||
  (c == '\u2028') || (c == '\u2029') || (c == '\u202F') ||
  (c == '\u205F') || (c == '\u3000')

/-- JS `[^)]` character class. -/
def notRParen (c : Char) : Bool := !(c == ')')

/-- JS `[^>]` character class. -/
def notGt (c : Char) : Bool := !(c == '>')

/-- Regex AST covering exactly the constructs used by the five patterns in
`src/extension.ts`: literal characters, character classes, greedy `*` over a
character class (every quantifier in the source patterns quantifies a
character class), concatenation, alternation, greedy `?`, and numbered
capture groups. -/
inductive RE where
  | eps : RE
  | ch : Char → RE
  | cls : (Char → Bool) → RE
  | starCls : (Char → Bool) → RE
  | cat : RE → RE → RE
  | alt : RE → RE → RE
  | opt : RE → RE
  | grp : Nat → RE → RE

/-- Capture environment: group index paired with captured text, most recent
binding first. -/
abbrev Caps := List (Nat × List Char)

/-- Length of the maximal prefix of `s` whose characters satisfy `p`. -/
def runLen (p : Char → Bool) : List Char → Nat
  | [] => 0
  | c :: cs => if p c then runLen p cs + 1 else 0

/-- Greedy backtracking for a class star: try consuming `n` characters, then
`n - 1`, ... down to `0`, handing the rest to the continuation `k`. -/
def starTry (s : List Char) (caps : Caps) (k : List Char → Caps → Option Caps) :
    Nat → Option Caps
  | 0 => k s caps
  | n + 1 =>
    match k (s.drop (n + 1)) caps with
    | some r => some r
    | none => starTry s caps k n

/-- CPS backtracking matcher. `mtch re s caps k` tries to match `re` against a
prefix of `s`; on each candidate it calls `k` with the remaining suffix and
the updated captures. Semantics follow JS regexes: alternation prefers the
left branch, `*`/`?` are greedy, a capture group records the consumed span. -/
def mtch : RE → List Char → Caps → (List Char → Caps → Option Caps) → Option Caps
  | RE.eps, s, caps, k => k s caps
  | RE.ch c, s, caps, k =>
    match s with
    | [] => none
    | d :: rest => if d = c then k rest caps else none
  | RE.cls p, s, caps, k =>
    match s with
    | [] => none
    | d :: rest => if p d then k rest caps else none
  | RE.starCls p, s, caps, k => starTry s caps k (runLen p s)
  | RE.cat a b, s, caps, k => mtch a s caps (fun s2 caps2 => mtch b s2 caps2 k)
  | RE.alt a b, s, caps, k =>
    match mtch a s caps k with
    | some r => some r
    | none => mtch b s caps k
  | RE.opt a, s, caps, k =>
    match mtch a s caps k with
    | some r => some r
    | none => k s caps
  | RE.grp i a, s, caps, k =>
    mtch a s caps (fun s2 caps2 => k s2 ((i, s.take (s.length - s2.length)) :: caps2))

/-- Unanchored search, as JS `String.prototype.match` without the `g` flag:
try the match at position 0, then 1, ... and return the captures of the
leftmost successful match. -/
def reSearch (re : RE) : List Char → Option Caps
  | [] => mtch re [] [] (fun _ caps => some caps)
  | c :: rest =>
    match mtch re (c :: rest) [] (fun _ caps => some caps) with
    | some caps => some caps
    | none => reSearch re rest

/-- `RegExp.prototype.test` for a pattern anchored with a leading `^` (no `m`
flag): only a match starting at position 0 counts, so the embedded pattern
omits the `^` node and is matched at the start of the input. -/
def reTest0 (re : RE) (s : List Char) : Bool :=
  (mtch re s [] (fun _ caps => some caps)).isSome

/-- `m[i]` on a JS match result: the most recent binding of group `i`, or
`undefined` (here `none`) when the group did not participate. -/
def capGet (caps : Caps) (i : Nat) : Option (List Char) :=
  match caps.find? (fun pr => pr.1 == i) with
  | some pr => some pr.2
  | none => none

/-- Concatenation of a list of regexes. -/
def rseq (xs : List RE) : RE := xs.foldr RE.cat RE.eps

/-- Literal word. -/
def rlit (s : String) : RE := rseq (s.toList.map RE.ch)

/-- `\s*` -/
def sstar : RE := RE.starCls isSpaceJS

/-- `\s+` -/
def splus : RE := RE.cat (RE.cls isSpaceJS) (RE.starCls isSpaceJS)

/-- `\w+` -/
def wplus : RE := RE.cat (RE.cls isWordChar) (RE.starCls isWordChar)

/-- extension.ts line 96, first declaration pattern (body after the `^`):
`^\s*(export\s+)?(const|function|let|var)\s+(\w+)\s*=?\s*(?:async\s*)?\([^)]*\)\s*(?::\s*\w+\s*)?(?:=>|\x7b)` -/
def patternA : RE :=
  rseq [sstar,
        RE.opt (RE.grp 1 (rseq [rlit "export", splus])),
        RE.grp 2 (RE.alt (rlit "const")
          (RE.alt (rlit "function") (RE.alt (rlit "let") (rlit "var")))),
        splus,
        RE.grp 3 wplus,
        sstar,
        RE.opt (RE.ch '='),
        sstar,
        RE.opt (rseq [rlit "async", sstar]),
        RE.ch '(', RE.starCls notRParen, RE.ch ')',
        sstar,
        RE.opt (rseq [RE.ch ':', sstar, wplus, sstar]),
        RE.alt (rseq [RE.ch '=', RE.ch '>']) (RE.ch '{')]

/-- extension.ts line 97, second declaration pattern (body after the `^`):
`^\s*(export\s+)?(?:async\s+)?function\s+(\w+)\s*\([^)]*\)` -/
def patternB : RE :=
  rseq [sstar,
        RE.opt (RE.grp 1 (rseq [rlit "export", splus])),
        RE.opt (rseq [rlit "async", splus]),
        rlit "function", splus,
        RE.grp 2 wplus,
        sstar,
        RE.ch '(', RE.starCls notRParen, RE.ch ')']

/-- extension.ts line 152, name regex, first alternative:
`(?:function|const|let|var)\s+(\w+)` -/
def nameAlt1 : RE :=
  rseq [RE.alt (rlit "function")
          (RE.alt (rlit "const") (RE.alt (rlit "let") (rlit "var"))),
        splus, RE.grp 1 wplus]

/-- extension.ts line 152, name regex, second alternative:
`(\w+)\s*(?:=\s*(?:async\s*)?\(|:\s*\()` -/
def nameAlt2 : RE :=
  rseq [RE.grp 2 wplus, sstar,
        RE.alt (rseq [RE.ch '=', sstar, RE.opt (rseq [rlit "async", sstar]), RE.ch '('])
               (rseq [RE.ch ':', sstar, RE.ch '('])]

/-- extension.ts line 152:
`/(?:function|const|let|var)\s+(\w+)|(\w+)\s*(?:=\s*(?:async\s*)?\(|:\s*\()/` -/
def nameRE : RE := RE.alt nameAlt1 nameAlt2

/-- extension.ts line 156: `/\(([^)]*)\)/` -/
def paramsRE : RE := rseq [RE.ch '(', RE.grp 1 (RE.starCls notRParen), RE.ch ')']

/-- extension.ts line 169: `/\):\s*(\w+(?:<[^>]+>)?)/` -/
def returnRE : RE :=
  rseq [RE.ch ')', RE.ch ':', sstar,
        RE.grp 1 (rseq [wplus,
          RE.opt (rseq [RE.ch '<', RE.cat (RE.cls notGt) (RE.starCls notGt), RE.ch '>'])])]

/-- The `FunctionInfo` interface of extension.ts (lines 4–9). -/
structure FunctionInfo where
  name : List Char
  params : List (List Char)
  returnType : List Char
  body : List Char

/-- JS `String.prototype.split` with a single-character separator: splits at
every occurrence, keeping empty pieces (so `"".split(c) = [""]`). -/
def splitOnChar (sep : Char) : List Char → List (List Char)
  | [] => [[]]
  | c :: cs =>
    match splitOnChar sep cs with
    | [] => [[]]
    | h :: t => if c == sep then [] :: h :: t else (c :: h) :: t

/-- JS `p.split(sep)[0]`: the prefix of `s` before the first occurrence of
`sep` (all of `s` when `sep` does not occur). -/
def takeBefore (sep : Char) (s : List Char) : List Char :=
  s.takeWhile (fun c => !(c == sep))

/-- JS `String.prototype.trim` with the `\s` whitespace set. -/
def trimJS (s : List Char) : List Char :=
  ((s.dropWhile isSpaceJS).reverse.dropWhile isSpaceJS).reverse

/-- extension.ts lines 150–178, `parseFunctionFromText`. Note the `name`
computation `nameMatch ? (nameMatch[1] || nameMatch[2]) : 'unknown'`: on a
successful match exactly one of groups 1 and 2 participated (each alternative
of `nameRE` contains its own group over `\w+`, which never captures the empty
string), so the JS `||` chain is the first defined group; the `none, none`
arm is unreachable. Likewise group 1 of `paramsRE` and group 1 of `returnRE`
always participate in a successful match, so the `getD` defaults there are
unreachable. -/
def parseFunctionFromText (text : List Char) : FunctionInfo :=
  let nameMatch := reSearch nameRE text
  let name :=
    match nameMatch with
    | none => "unknown".toList
    | some caps =>
      match capGet caps 1, capGet caps 2 with
      | some s, _ => s
      | none, some s => s
      | none, none => []
  let paramsMatch := reSearch paramsRE text
  let paramsStr :=
    match paramsMatch with
    | some caps => (capGet caps 1).getD []
    | none => []
  let params :=
    (((splitOnChar ',' paramsStr).map trimJS).filter
        (fun p => decide (p.length > 0))).map
      (fun p => trimJS (takeBefore '=' (takeBefore ':' p)))
  let returnMatch := reSearch returnRE text
  let returnType :=
    match returnMatch with
    | some caps => (capGet caps 1).getD "void".toList
    | none => "void".toList
  ⟨name, params, returnType, text⟩

/-- extension.ts lines 107–113: a line starts a function when either
declaration pattern tests positively (pattern A is tried first, but only the
boolean outcome is used). -/
def matchesDecl (lineText : List Char) : Bool :=
  reTest0 patternA lineText || reTest0 patternB lineText

/-- The indices visited by the backward loop of extension.ts line 104,
`for (let i = cursorLine; i >= Math.max(0, cursorLine - 20); i--)`, in visit
order: `cursorLine, cursorLine - 1, ..., max 0 (cursorLine - 20)`. -/
def lookbackIdxs (cursorLine : Nat) : List Nat :=
  (List.range (cursorLine + 1 - (cursorLine - 20))).map (fun k => cursorLine - k)

/-- The backward scan over a list of indices: `document.lineAt(i)` on an
out-of-range index throws (modelled `Except.error ()`); the first index whose
line passes `matchesDecl` is returned. -/
def scanBack (doc : List (List Char)) : List Nat → Except Unit (Option Nat)
  | [] => Except.ok none
  | i :: rest =>
    match doc.get? i with
    | none => Except.error ()
    | some t => if matchesDecl t then Except.ok (some i) else scanBack doc rest

/-- extension.ts lines 100–120: the backward search for the declaration line. -/
def backScan (doc : List (List Char)) (cursorLine : Nat) : Except Unit (Option Nat) :=
  scanBack doc (lookbackIdxs cursorLine)

/-- Per-character brace counting of extension.ts lines 132–135. -/
def braceStep (b : Int) (c : Char) : Int :=
  if c = '{' then b + 1 else if c = '}' then b - 1 else b

/-- Brace count after processing one whole line (`for (const char of lineText)`). -/
def lineBrace (bc : Int) (lineText : List Char) : Int :=
  lineText.foldl braceStep bc

/-- Why the forward scan of extension.ts lines 127–144 ended: `braces` for the
`braceCount === 0 && lineText.includes('{')` break, `cap` for the
`i - startLine > 100` break, `eod` for running off `document.lineCount`. -/
inductive StopReason where
  | braces : StopReason
  | cap : StopReason
  | eod : StopReason
deriving DecidableEq

/-- Outcome of the forward scan: the accumulated `functionText`, the loop
index at the break (for `eod` the first index past the processed lines), and
the reason. -/
structure FwdResult where
  text : List Char
  stop : Nat
  reason : StopReason

/-- extension.ts lines 127–144, the forward scan. `startLine` is fixed;
the remaining arguments are the loop state: the list of still-unprocessed
lines (`document` from index `i` on), the loop index `i`, `braceCount`, and
the accumulated `functionText`. Each iteration appends the line plus `'\n'`,
updates the brace count over the line's characters, then breaks when
`braceCount === 0 && lineText.includes('{')`, else when
`i - startLine > 100`, else continues. -/
def fwdScanAux (startLine : Nat) :
    List (List Char) → Nat → Int → List Char → FwdResult
  | [], i, _, acc => ⟨acc, i, StopReason.eod⟩
  | lineText :: rest, i, bc, acc =>
    let acc2 := acc ++ lineText ++ ['\n']
    let bc2 := lineBrace bc lineText
    if bc2 == 0 && lineText.contains '{' then ⟨acc2, i, StopReason.braces⟩
    else if 100 < i - startLine then ⟨acc2, i, StopReason.cap⟩
    else fwdScanAux startLine rest (i + 1) bc2 acc2

/-- extension.ts lines 91–148, `detectFunctionAtCursor`: backward scan for the
declaration line, then forward scan from it for the body, then extraction.
`Except.error ()` models a thrown exception, `Except.ok none` the `null`
return of line 119. (`endLine` of the source is write-only dead state; the
returned pair is `{ functionInfo, startLine }`.) -/
def detectFunctionAtCursor (doc : List (List Char)) (cursorLine : Nat) :
    Except Unit (Option (FunctionInfo × Nat)) :=
  match backScan doc cursorLine with
  | Except.error e => Except.error e
  | Except.ok none => Except.ok none
  | Except.ok (some startLine) =>
    let scan := fwdScanAux startLine (doc.drop startLine) startLine 0 []
    Except.ok (some (parseFunctionFromText scan.text, startLine))

/-- extension.ts lines 228–246: the pure comment-block construction of
`insertDocumentation` (the `doc` string built from the insertion line's
indentation, the summary, and the extracted signature; the remaining lines of
the source function apply the edit through the host editor). -/
def insertDocumentationText (indent : List Char) (summary : List Char)
    (functionInfo : FunctionInfo) : List Char :=
  let doc := indent ++ "/**\n".toList
  let doc := doc ++ indent ++ " * <summary>\n".toList
  let doc := doc ++ indent ++ " * ".toList ++ summary ++ "\n".toList
  let doc := doc ++ indent ++ " * </summary>\n".toList
  let doc := functionInfo.params.foldl
    (fun d param =>
      if param ≠ [] ∧ param ≠ "...".toList then
        d ++ indent ++ " * <param name=\"".toList ++ param ++ "\"></param>\n".toList
      else d) doc
  let doc :=
    if functionInfo.returnType ≠ "void".toList then
      doc ++ indent ++ " * <returns></returns>\n".toList
    else doc
  doc ++ indent ++ " */\n".toList

/-- Cumulative brace count over a list of whole lines. -/
def bcAfter (bc : Int) (ls : List (List Char)) : Int :=
  ls.foldl lineBrace bc

/-- Append lines to an accumulator the way the forward scan does. -/
def appendLines (acc : List Char) (ls : List (List Char)) : List Char :=
  ls.foldl (fun a t => a ++ t ++ ['\n']) acc

/-- Number of occurrences of a character. -/
def countChar (c : Char) (s : List Char) : Nat :=
  (s.filter (fun d => d == c)).length

/-- Split into lines at `'\n'` (a trailing newline yields a final empty piece). -/
def splitNl (s : List Char) : List (List Char) :=
  splitOnChar '\n' s

/-! ### Helper lemmas -/

theorem fwdScanAux_nil (s i : Nat) (bc : Int) (acc : List Char) :
    fwdScanAux s [] i bc acc = FwdResult.mk acc i StopReason.eod := rfl

theorem fwdScanAux_cons_stop (s : Nat) (t : List Char) (rest : List (List Char))
    (i : Nat) (bc : Int) (acc : List Char)
    (h1 : lineBrace bc t = 0) (h2 : '{' ∈ t) :
    fwdScanAux s (t :: rest) i bc acc =
      FwdResult.mk (acc ++ t ++ ['\n']) i StopReason.braces := by
  simp [fwdScanAux, h1, h2]

theorem fwdScanAux_cons_cap (s : Nat) (t : List Char) (rest : List (List Char))
    (i : Nat) (bc : Int) (acc : List Char)
    (h1 : ¬(lineBrace bc t = 0 ∧ '{' ∈ t)) (h2 : 100 < i - s) :
    fwdScanAux s (t :: rest) i bc acc =
      FwdResult.mk (acc ++ t ++ ['\n']) i StopReason.cap := by
  simp only [fwdScanAux]
  rw [if_neg (by simpa using h1), if_pos h2]

theorem fwdScanAux_cons_next (s : Nat) (t : List Char) (rest : List (List Char))
    (i : Nat) (bc : Int) (acc : List Char)
    (h1 : ¬(lineBrace bc t = 0 ∧ '{' ∈ t)) (h2 : ¬ 100 < i - s) :
    fwdScanAux s (t :: rest) i bc acc =
      fwdScanAux s rest (i + 1) (lineBrace bc t) (acc ++ t ++ ['\n']) := by
  simp only [fwdScanAux]
  rw [if_neg (by simpa using h1), if_neg h2]

theorem fwdScan_first_stop (ls : List (List Char)) :
    ∀ (s i : Nat) (bc : Int) (acc : List Char) (j : Nat) (lj : List Char),
      s ≤ i → i - s + j ≤ 101 →
      ls.get? j = some lj →
      bcAfter bc (ls.take (j + 1)) = 0 →
      lj.contains '{' = true →
      (∀ k lk, k < j → ls.get? k = some lk →
        bcAfter bc (ls.take (k + 1)) = 0 → lk.contains '{' = false) →
      ∃ txt, fwdScanAux s ls i bc acc = FwdResult.mk txt (i + j) StopReason.braces := by
  induction ls with
  | nil =>
    intro s i bc acc j lj _ _ hj _ _ _
    simp [List.get?] at hj
  | cons t rest ih =>
    intro s i bc acc j lj hs hcap hj hzero hopen hleast
    cases j with
    | zero =>
      have ht : t = lj := Option.some.inj hj
      subst ht
      have hb : lineBrace bc t = 0 := hzero
      refine ⟨acc ++ t ++ ['\n'], ?_⟩
      rw [fwdScanAux_cons_stop s t rest i bc acc hb (by simpa using hopen)]
      simp
    | succ j' =>
      have hnotboth : ¬(lineBrace bc t = 0 ∧ '{' ∈ t) := by
        rintro ⟨hb, hc⟩
        have hnc := hleast 0 t (Nat.succ_pos j') rfl hb
        exact absurd hc (by simpa using hnc)
      have hcap2 : ¬ (100 < i - s) := by omega
      obtain ⟨txt, htxt⟩ := ih s (i + 1) (lineBrace bc t) (acc ++ t ++ ['\n']) j' lj
        (by omega) (by omega) hj hzero hopen
        (fun k lk hk hg hz => hleast (k + 1) lk (Nat.succ_lt_succ hk) hg hz)
      refine ⟨txt, ?_⟩
      rw [fwdScanAux_cons_next s t rest i bc acc hnotboth hcap2, htxt]
      have hidx : (i + 1) + j' = i + (j' + 1) := by omega
      rw [hidx]

theorem fwdScan_take_bound (ls : List (List Char)) :
    ∀ (s i : Nat) (bc : Int) (acc : List Char), s ≤ i → i - s ≤ 101 →
      ∃ n, n ≤ 102 - (i - s) ∧ n ≤ ls.length ∧
        (fwdScanAux s ls i bc acc).text = appendLines acc (ls.take n) := by
  induction ls with
  | nil =>
    intro s i bc acc _ _
    exact ⟨0, by omega, by simp, rfl⟩
  | cons t rest ih =>
    intro s i bc acc hs hle
    by_cases hb : lineBrace bc t = 0 ∧ '{' ∈ t
    · refine ⟨1, by omega, by simp, ?_⟩
      rw [fwdScanAux_cons_stop s t rest i bc acc hb.1 hb.2]
      rfl
    · by_cases h2 : 100 < i - s
      · refine ⟨1, by omega, by simp, ?_⟩
        rw [fwdScanAux_cons_cap s t rest i bc acc hb h2]
        rfl
      · obtain ⟨n, hn1, hn2, hn3⟩ := ih s (i + 1) (lineBrace bc t) (acc ++ t ++ ['\n'])
          (by omega) (by omega)
        refine ⟨n + 1, by omega, by simpa using Nat.succ_le_succ hn2, ?_⟩
        rw [fwdScanAux_cons_next s t rest i bc acc hb h2, hn3]
        rfl

theorem scanBack_none (doc : List (List Char)) :
    ∀ idxs : List Nat,
      (∀ i ∈ idxs, ∃ lt, doc.get? i = some lt ∧ matchesDecl lt = false) →
      scanBack doc idxs = Except.ok none := by
  intro idxs
  induction idxs with
  | nil => intro _; rfl
  | cons i rest ih =>
    intro h
    obtain ⟨lt, hget, hdecl⟩ := h i (by simp)
    have hget2 : doc[i]? = some lt := by simpa using hget
    have e : scanBack doc (i :: rest) = scanBack doc rest := by
      simp [scanBack, hget2, hdecl]
    rw [e]
    exact ih (fun a ha => h a (by simp [ha]))

theorem scanBack_no_throw (doc : List (List Char)) :
    ∀ idxs : List Nat, (∀ i ∈ idxs, i < doc.length) →
      ∃ o, scanBack doc idxs = Except.ok o := by
  intro idxs
  induction idxs with
  | nil => intro _; exact ⟨none, rfl⟩
  | cons i rest ih =>
    intro h
    have hi : i < doc.length := h i (by simp)
    have hget : doc[i]? = some doc[i] := List.getElem?_eq_getElem hi
    by_cases hd : matchesDecl doc[i] = true
    · exact ⟨some i, by simp [scanBack, hget, hd]⟩
    · obtain ⟨o, ho⟩ := ih (fun a ha => h a (by simp [ha]))
      exact ⟨o, by simp [scanBack, hget, hd, ho]⟩

theorem mem_lookbackIdxs {i cursorLine : Nat} (h : i ∈ lookbackIdxs cursorLine) :
    cursorLine - 20 ≤ i ∧ i ≤ cursorLine := by
  simp [lookbackIdxs] at h
  obtain ⟨k, hk, rfl⟩ := h
  omega

theorem reSearch_alt_none (a b : RE) :
    ∀ s : List Char, reSearch a s = none → reSearch (RE.alt a b) s = reSearch b s := by
  intro s
  induction s with
  | nil =>
    intro h
    have ha : mtch a [] [] (fun _ caps => some caps) = none := h
    simp [reSearch, mtch, ha]
  | cons c rest ih =>
    intro h
    cases hm : mtch a (c :: rest) [] (fun _ caps => some caps) with
    | some r =>
      rw [reSearch, hm] at h
      exact absurd h (by simp)
    | none =>
      have h2 : reSearch a rest = none := by
        rw [reSearch, hm] at h
        exact h
      have ih2 := ih h2
      simp only [reSearch, mtch, hm]
      cases hmb : mtch b (c :: rest) [] (fun _ caps => some caps) with
      | some r => simp [hmb]
      | none => simp [hmb, ih2]

/-! ### Claims -/

/-- Claim C4: for every document and cursor line, if no line among the cursor
line and the 20 lines above it matches either declaration pattern, the
Locator returns null (no FunctionInfo, no start line). -/
theorem claim_C4 (doc : List (List Char)) (cursorLine : Nat)
    (hcur : cursorLine < doc.length)
    (hno : ∀ i lt, cursorLine - 20 ≤ i → i ≤ cursorLine → doc.get? i = some lt →
      matchesDecl lt = false) :
    detectFunctionAtCursor doc cursorLine = Except.ok none := by
  have hb : backScan doc cursorLine = Except.ok none := by
    apply scanBack_none
    intro i hi
    obtain ⟨h1, h2⟩ := mem_lookbackIdxs hi
    have hilen : i < doc.length := lt_of_le_of_lt h2 hcur
    exact ⟨doc.get ⟨i, hilen⟩, List.get?_eq_get hilen,
      hno i _ h1 h2 (List.get?_eq_get hilen)⟩
  unfold detectFunctionAtCursor
  rw [hb]

/-- Witness for C4: a one-line document whose single line `hello` matches no
declaration pattern, cursor on line 0. -/
theorem claim_C4_witness :
    detectFunctionAtCursor [("hello".toList)] 0 = Except.ok none :=
  claim_C4 _ 0 (by decide) (by
    intro i lt h1 h2 h3
    obtain rfl : i = 0 := by omega
    obtain rfl : lt = "hello".toList := (Option.some.inj h3).symm
    decide)

/-- Claim C6: for every input text, if no substring matches the return-type
pattern then `returnType` is the sentinel `"void"`, and if neither
name-extraction alternative matches then `name` is the sentinel `"unknown"`. -/
theorem claim_C6 (text : List Char) :
    (reSearch returnRE text = none →
      (parseFunctionFromText text).returnType = "void".toList) ∧
    (reSearch nameRE text = none →
      (parseFunctionFromText text).name = "unknown".toList) := by
  constructor
  · intro h
    simp [parseFunctionFromText, h]
  · intro h
    simp [parseFunctionFromText, h]

/-- Witness for C6 at the text `hello`, which has no return-type annotation
and matches neither name alternative. -/
theorem claim_C6_witness :
    (parseFunctionFromText "hello".toList).returnType = "void".toList ∧
    (parseFunctionFromText "hello".toList).name = "unknown".toList :=
  ⟨(claim_C6 _).1 (by decide), (claim_C6 _).2 (by decide)⟩

/-- Claim C8: the Extractor is total — for every input text it returns a
`FunctionInfo` (whose `body` is the input text); and the Locator never throws
for any document and (valid) cursor line: its result is always `Except.ok`,
never the `Except.error` that models a thrown exception. -/
theorem claim_C8 (text : List Char) (doc : List (List Char)) (cursorLine : Nat)
    (hcur : cursorLine < doc.length) :
    (∃ fi, parseFunctionFromText text = fi ∧ fi.body = text) ∧
    (∃ r, detectFunctionAtCursor doc cursorLine = Except.ok r) := by
  constructor
  · exact ⟨parseFunctionFromText text, rfl, rfl⟩
  · obtain ⟨o, ho⟩ := scanBack_no_throw doc (lookbackIdxs cursorLine)
      (fun i hi => lt_of_le_of_lt (mem_lookbackIdxs hi).2 hcur)
    have hbs : backScan doc cursorLine = Except.ok o := ho
    cases o with
    | none => exact ⟨none, by unfold detectFunctionAtCursor; rw [hbs]⟩
    | some s =>
      exact ⟨some (parseFunctionFromText (fwdScanAux s (doc.drop s) s 0 []).text, s),
        by unfold detectFunctionAtCursor; rw [hbs]⟩

/-- Witness for C8: arbitrary non-function text and a one-line document. -/
theorem claim_C8_witness :
    (∃ fi, parseFunctionFromText "y".toList = fi ∧ fi.body = "y".toList) ∧
    (∃ r, detectFunctionAtCursor [("x".toList)] 0 = Except.ok r) :=
  claim_C8 _ _ 0 (by decide)

/-- Claim C10: once the backward scan finds a declaration line, the Locator
returns a non-null result — a `FunctionInfo` paired with that start line —
regardless of whether the brace count ever returns to zero during the
forward scan. -/
theorem claim_C10 (doc : List (List Char)) (cursorLine startLine : Nat)
    (h : backScan doc cursorLine = Except.ok (some startLine)) :
    ∃ fi, detectFunctionAtCursor doc cursorLine = Except.ok (some (fi, startLine)) :=
  ⟨parseFunctionFromText (fwdScanAux startLine (doc.drop startLine) startLine 0 []).text,
    by unfold detectFunctionAtCursor; rw [h]⟩

/-- Witness for C10: a document whose single line `function f(x)` matches
pattern B but contains no brace at all, so the brace count never opens; the
Locator still returns a non-null result with start line 0. -/
theorem claim_C10_witness :
    ∃ fi, detectFunctionAtCursor [("function f(x)".toList)] 0 =
      Except.ok (some (fi, 0)) :=
  claim_C10 _ 0 0 (by rfl)


/-- Counterexample to Claim C1 as stated. Document
`["function f() \x7b", "\x7d", "x"]`: line 0 is a declaration line and opens
a brace, and the cumulative brace count first returns to zero at line 1 (the
matching `\x7d` on a later line, satisfying the claim's hypothesis). The
claim says the forward scan terminates exactly there; in fact the stop
condition also requires the zero-count line to contain a `\x7b` itself, so
the scan runs past line 1 to the end of the document (stop index 3, reason
`eod`), not line 1. -/
theorem claim_C1_counterexample :
    matchesDecl ("function f() \x7b".toList) = true ∧
    bcAfter 0 [("function f() \x7b".toList)] = 1 ∧
    bcAfter 0 [("function f() \x7b".toList), ("\x7d".toList)] = 0 ∧
    ("function f() \x7b".toList).contains '{' = true ∧
    (fwdScanAux 0 [("function f() \x7b".toList), ("\x7d".toList), ("x".toList)]
        0 0 []).reason = StopReason.eod ∧
    (fwdScanAux 0 [("function f() \x7b".toList), ("\x7d".toList), ("x".toList)]
        0 0 []).stop = 3 ∧
    ¬ (3 : Nat) = 1 := by
  refine ⟨by decide, by decide, by decide, by decide, by decide, by decide, by decide⟩

/-- Claim C1 (amended): the forward scan terminates exactly at the first line
at which the cumulative brace count returns to zero AND which itself contains
at least one `\x7b` — not merely the first zero-count line after a brace has
been opened — provided such a line exists within the scanned window (index at
most 101 past the declaration line), and never at an earlier line. -/
theorem claim_C1 (ls : List (List Char)) (startLine j : Nat) (lj : List Char)
    (hget : ls.get? j = some lj) (hwin : j ≤ 101)
    (hzero : bcAfter 0 (ls.take (j + 1)) = 0)
    (hopen : lj.contains '{' = true)
    (hfirst : ∀ k lk, k < j → ls.get? k = some lk →
      bcAfter 0 (ls.take (k + 1)) = 0 → lk.contains '{' = false) :
    ∃ txt, fwdScanAux startLine ls startLine 0 [] =
      FwdResult.mk txt (startLine + j) StopReason.braces :=
  fwdScan_first_stop ls startLine startLine 0 [] j lj (le_refl _) (by omega)
    hget hzero hopen hfirst

/-- Witness for the amended C1: lines `["let b", "g = () => \x7b\x7d"]` from
start line 3. Line 0 has cumulative count zero but no brace, so it does not
stop the scan; line 1 is the first qualifying line and the scan stops there. -/
theorem claim_C1_witness :
    ∃ txt, fwdScanAux 3 [("let b".toList), ("g = () => \x7b\x7d".toList)] 3 0 [] =
      FwdResult.mk txt (3 + 1) StopReason.braces :=
  claim_C1 _ 3 1 ("g = () => \x7b\x7d".toList) (by decide) (by decide) (by decide)
    (by decide)
    (by
      intro k lk hk h1 h2
      obtain rfl : k = 0 := by omega
      obtain rfl : lk = "let b".toList := (Option.some.inj h1).symm
      decide)

/-- Claim C5: the forward scan stops at the first scanned line where the
running brace count equals zero and that same line contains at least one
`\x7b` (first conjunct: the stop index is exactly the first such line, when
one exists in the scanned window); in particular a declaration line carrying
both `\x7b` and `\x7d` (a single-line arrow function) terminates the scan on
the declaration line itself (second conjunct). -/
theorem claim_C5 :
    (∀ (ls : List (List Char)) (startLine j : Nat) (lj : List Char),
        ls.get? j = some lj → j ≤ 101 →
        bcAfter 0 (ls.take (j + 1)) = 0 → lj.contains '{' = true →
        (∀ k lk, k < j → ls.get? k = some lk → bcAfter 0 (ls.take (k + 1)) = 0 →
          lk.contains '{' = false) →
        ∃ txt, fwdScanAux startLine ls startLine 0 [] =
          FwdResult.mk txt (startLine + j) StopReason.braces) ∧
    (∀ (startLine : Nat) (declLine : List Char) (rest : List (List Char)),
        lineBrace 0 declLine = 0 → declLine.contains '{' = true →
        fwdScanAux startLine (declLine :: rest) startLine 0 [] =
          FwdResult.mk (declLine ++ ['\n']) startLine StopReason.braces) := by
  constructor
  · intro ls startLine j lj hget hwin hzero hopen hfirst
    exact fwdScan_first_stop ls startLine startLine 0 [] j lj (le_refl _) (by omega)
      hget hzero hopen hfirst
  · intro startLine declLine rest h1 h2
    have h := fwdScanAux_cons_stop startLine declLine rest startLine 0 []
      h1 (by simpa using h2)
    simpa using h

/-- Witness for C5: first conjunct at lines `["var a", "function f() \x7b\x7d"]`
from start line 5 (stops at line index 1); second conjunct at the single-line
arrow function `f = () => \x7b return 1; \x7d` from start line 7 (stops on the
declaration line itself). -/
theorem claim_C5_witness :
    (∃ txt, fwdScanAux 5 [("var a".toList), ("function f() \x7b\x7d".toList)] 5 0 [] =
        FwdResult.mk txt (5 + 1) StopReason.braces) ∧
    fwdScanAux 7 [("f = () => \x7b return 1; \x7d".toList)] 7 0 [] =
      FwdResult.mk (("f = () => \x7b return 1; \x7d".toList) ++ ['\n']) 7
        StopReason.braces :=
  ⟨claim_C5.1 _ 5 1 ("function f() \x7b\x7d".toList) (by decide) (by decide)
      (by decide) (by decide)
      (by
        intro k lk hk h1 h2
        obtain rfl : k = 0 := by omega
        obtain rfl : lk = "var a".toList := (Option.some.inj h1).symm
        decide),
    claim_C5.2 7 _ [] (by decide) (by decide)⟩

/-- Counterexample to Claim C7 as stated. On a 200-line document of brace-free
lines with the declaration at line 0, the cap check `i - startLine > 100`
fires only after the line at offset 101 has been read and accumulated: the
scan stops at index 101 with reason `cap` and the accumulated text holds 102
lines — the declaration line plus 101 lines beyond it, one more than the
claimed bound of 100. -/
theorem claim_C7_counterexample :
    (fwdScanAux 0 (List.replicate 200 ['x']) 0 0 []).reason = StopReason.cap ∧
    (fwdScanAux 0 (List.replicate 200 ['x']) 0 0 []).stop = 101 ∧
    countChar '\n' (fwdScanAux 0 (List.replicate 200 ['x']) 0 0 []).text = 102 ∧
    ¬ (101 : Nat) ≤ 100 := by
  refine ⟨by decide, by decide, by decide, by decide⟩

/-- Claim C7 (amended): the forward scan examines at most 101 lines beyond
the declaration line — the accumulated span always consists of the first `n`
scanned lines for some `n ≤ 102` (declaration line included), regardless of
whether the brace count ever returns to zero. -/
theorem claim_C7 (ls : List (List Char)) (startLine : Nat) :
    ∃ n, n ≤ 102 ∧ n ≤ ls.length ∧
      (fwdScanAux startLine ls startLine 0 []).text = appendLines [] (ls.take n) := by
  obtain ⟨n, h1, h2, h3⟩ := fwdScan_take_bound ls startLine startLine 0 []
    (le_refl _) (by omega)
  exact ⟨n, by omega, h2, h3⟩


/-- Scenario A signature: name `add`, parameters `a`, `b`, returnType `void`
(the claim fixes these fields; `body` is not consulted by the Formatter). -/
def scenarioASig : FunctionInfo :=
  ⟨"add".toList, ["a".toList, "b".toList], "void".toList,
    "function add(a, b) \x7b return a + b; \x7d".toList⟩

/-- Counterexample to Claim C2 as stated: formatting the summary
`Adds two numbers.` with Scenario A's signature at zero indentation produces
a block of 7 newline-terminated lines (opening delimiter, summary open tag,
summary text, summary close tag, one param tag each for `a` and `b`, closing
delimiter), not the claimed 6. -/
theorem claim_C2_counterexample :
    countChar '\n'
      (insertDocumentationText [] ("Adds two numbers.".toList) scenarioASig) = 7 ∧
    ¬ countChar '\n'
      (insertDocumentationText [] ("Adds two numbers.".toList) scenarioASig) = 6 := by
  refine ⟨by decide, by decide⟩

/-- Claim C2 (amended): formatting the summary `Adds two numbers.` with the
signature name `add`, parameters `a`, `b`, returnType `void`, at zero
indentation, produces a 7-line comment block — an opening delimiter, a
summary tag pair wrapping the summary text, one param tag each for `a` and
`b`, and a closing delimiter — with no returns tag. -/
theorem claim_C2 :
    insertDocumentationText [] ("Adds two numbers.".toList) scenarioASig =
      ("/**\n * <summary>\n * Adds two numbers.\n * </summary>\n * <param name=\"a\"></param>\n * <param name=\"b\"></param>\n */\n").toList ∧
    splitNl (insertDocumentationText [] ("Adds two numbers.".toList) scenarioASig) =
      [("/**".toList), (" * <summary>".toList), (" * Adds two numbers.".toList),
       (" * </summary>".toList), (" * <param name=\"a\"></param>".toList),
       (" * <param name=\"b\"></param>".toList), (" */".toList), []] ∧
    (∀ l ∈ splitNl (insertDocumentationText [] ("Adds two numbers.".toList) scenarioASig),
      ¬ l = (" * <returns></returns>".toList)) := by
  refine ⟨by decide, by decide, by decide⟩

/-- Claim C9: for the input text `(a, : number)` the comma piece ` : number`
is non-empty after trimming, survives the emptiness filter (which runs before
annotation stripping), and strips to the empty parameter name, so `params`
is `["a", ""]`; the Formatter then skips the empty name — the resulting block
has exactly one param tag, for `a`. -/
theorem claim_C9 :
    (parseFunctionFromText ("(a, : number)".toList)).params = ["a".toList, []] ∧
    insertDocumentationText [] [] (parseFunctionFromText ("(a, : number)".toList)) =
      ("/**\n * <summary>\n * \n * </summary>\n * <param name=\"a\"></param>\n */\n").toList := by
  refine ⟨by decide, by decide⟩

/-- Counterexample to Claim C3 as stated: in the text `foo(x)` no
keyword-plus-identifier occurs and the identifier `foo` is immediately
followed by `(`, yet the Extractor's name is the sentinel `unknown`, not
`foo` — the second name alternative demands a `=` or `:` between the
identifier and the `(`. -/
theorem claim_C3_counterexample :
    (parseFunctionFromText ("foo(x)".toList)).name = "unknown".toList ∧
    ¬ (parseFunctionFromText ("foo(x)".toList)).name = "foo".toList := by
  refine ⟨by decide, by decide⟩

/-- Claim C3 (amended): when no keyword alternative matches anywhere in the
text but the arrow-assignment alternative — an identifier followed by `=`
(with optional whitespace and an optional `async`) and `(`, or by `:` and
`(` — matches with the identifier as its capture, the Extractor sets `name`
to that identifier rather than to `unknown`. -/
theorem claim_C3 (text : List Char) (caps : Caps) (ident : List Char)
    (h1 : reSearch nameAlt1 text = none)
    (h2 : reSearch nameAlt2 text = some caps)
    (h3 : capGet caps 1 = none)
    (h4 : capGet caps 2 = some ident) :
    (parseFunctionFromText text).name = ident := by
  have e : reSearch nameRE text = reSearch nameAlt2 text :=
    reSearch_alt_none nameAlt1 nameAlt2 text h1
  have hn : reSearch nameRE text = some caps := e.trans h2
  simp [parseFunctionFromText, hn, h3, h4]

/-- Witness for the amended C3 at the text `f = (x)`: no keyword occurs, the
arrow alternative captures `f`, and the extracted name is `f`. -/
theorem claim_C3_witness :
    (parseFunctionFromText ("f = (x)".toList)).name = "f".toList :=
  claim_C3 _ [(2, "f".toList)] _ (by decide) (by decide) (by decide) (by decide)


end XmlDocGen
